import Mathlib

/-!
Verification of the preprocessing pipeline in
`src/processing/data_processing.py` (Position_VAE repository).

The pandas DataFrame of joint observations is modelled as a list of rows.
Each row carries the frame-identifying index (`df.index`), the joint
`label`, and the coordinates `x`, `y`, `z`.  Coordinates are modelled as
rationals (exact arithmetic in place of floating point); derived distance
columns, which involve square roots, are modelled as real numbers.
A pandas `NaN` produced by index alignment is modelled as `Option.none`.
A raised Python exception is modelled with `Except`.
-/

/-- A row of the joint-position DataFrame: frame index (the DataFrame
index value), joint label, and the three coordinate columns. -/
structure Row where
  idx : Nat
  label : String
  x : ℚ
  y : ℚ
  z : ℚ
deriving DecidableEq, Repr

/-- A DataFrame of joint observations: a list of rows, in row order. -/
abbrev Table := List Row

/-- A row whose coordinates may be missing (pandas `NaN`), as produced by
index-aligned Series subtraction when a frame has no hip row. -/
structure NRow where
  idx : Nat
  label : String
  x : Option ℚ
  y : Option ℚ
  z : Option ℚ
deriving DecidableEq, Repr

/-- Code-point comparison of character lists, exactly the lexicographic
order Python/pandas uses when sorting string group keys. -/
def charListLe : List Char → List Char → Bool
  | [], _ => true
  | _ :: _, [] => false
  | a :: as, b :: bs =>
    if a.val < b.val then true
    else if b.val < a.val then false
    else charListLe as bs

/-- Lexicographic (code-point) order on strings. -/
def strLe (a b : String) : Bool := charListLe a.data b.data

/-- Insert a label into a sorted list of labels. -/
def insertLabel (s : String) : List String → List String
  | [] => [s]
  | a :: t => if strLe s a then s :: a :: t else a :: insertLabel s t

/-- Insertion sort on labels.  `df.groupby("label")` yields its groups in
sorted key order; since the keys are distinct, any sort produces the same
list. -/
def sortLabels : List String → List String
  | [] => []
  | a :: t => insertLabel a (sortLabels t)

/-- The distinct labels of a table in sorted order: the group keys of
`df.groupby("label")`, in the order pandas iterates them.  Only the set of
labels matters (they are deduplicated before sorting). -/
def groupLabels (df : Table) : List String :=
  sortLabels ((df.map (fun r => r.label)).dedup)

/-- The rows of one `groupby("label")` group, in original row order
(`groups.get_group(l)`). -/
def getGroup (df : Table) (l : String) : Table :=
  df.filter (fun r => r.label == l)

/-- The hip group, `groups.get_group("hip")`. -/
def hipGroup (df : Table) : Table := getGroup df "hip"

/-- Index-aligned lookup into the hip group: the hip row whose frame index
is `f`, or `none` when frame `f` has no hip row.  This is the per-label
association of `group['x'] - hip['x']` on the paths where the aligned
assignment succeeds without an identical-index fast path; on those paths
the hip index carries no duplicate of `f`, so first-match is the match. -/
def hipAt (df : Table) (f : Nat) : Option Row :=
  (hipGroup df).find? (fun r => r.idx == f)

/-- One row of a non-hip group after the aligned subtraction
`group['x'] -= hip['x']` (and likewise for y, z) on the label-lookup
path: the hip value of the same frame is subtracted; a frame with no hip
row yields `NaN`.  The identical-index fast path is `centerGroup`; the
duplicate-axis error path is `alignRaises`. -/
def centerRow (df : Table) (r : Row) : NRow :=
  { idx := r.idx
    label := r.label
    x := (hipAt df r.idx).map (fun h => r.x - h.x)
    y := (hipAt df r.idx).map (fun h => r.y - h.y)
    z := (hipAt df r.idx).map (fun h => r.z - h.z) }

/-- Insert a frame index into a sorted list of frame indexes. -/
def insertNat (n : Nat) : List Nat → List Nat
  | [] => [n]
  | a :: t => if n ≤ a then n :: a :: t else a :: insertNat n t

/-- Insertion sort on frame indexes (outer joins of indexes produce
their labels in sorted order). -/
def sortNat : List Nat → List Nat
  | [] => []
  | a :: t => insertNat a (sortNat t)

/-- Multiplicity of one label in the outer join of two indexes: labels
present on both sides pair cartesianly, one-sided labels pass through
(one of the two counts is then zero). -/
def joinMult (a b : Nat) : Nat := if 0 < a ∧ 0 < b then a * b else a + b

/-- The index of the outer join pandas performs when aligning two
differing Series indexes `G` and `H` (as in `group['x'] - hip['x']`):
each distinct label, in sorted order, repeated with its join
multiplicity. -/
def alignIdx (G H : List Nat) : List Nat :=
  (sortNat ((G ++ H).dedup)).flatMap
    (fun l => List.replicate (joinMult (G.count l) (H.count l)) l)

/-- Whether a list of frame indexes contains a duplicate. -/
def hasDup : List Nat → Bool
  | [] => false
  | a :: t => t.contains a || hasDup t

/-- Whether the column assignment `group['x'] = group['x'] - hip['x']`
raises `ValueError: cannot reindex from a duplicate axis` for a group
with index `G` against the hip index `H`: no error when the indexes are
identical (pandas aligns positionally), none when the aligned result
index already equals the group's index, none when the result index is
duplicate-free (reindexing fills missing labels with NaN); otherwise the
duplicate-labeled result cannot be reindexed onto the group. -/
def alignRaises (G H : List Nat) : Bool :=
  if G = H then false
  else if alignIdx G H = G then false
  else hasDup (alignIdx G H)

/-- The centered rows of one non-hip group when the assignment does not
raise: on the identical-index fast path pandas subtracts positionally;
otherwise each row is associated with the hip row of its frame (on the
non-raising paths the relevant hip labels are duplicate-free). -/
def centerGroup (df : Table) (g : Table) : List NRow :=
  if g.map (fun r => r.idx) = (hipGroup df).map (fun r => r.idx) then
    List.zipWith
      (fun gr hr => { idx := gr.idx, label := gr.label,
                      x := some (gr.x - hr.x), y := some (gr.y - hr.y),
                      z := some (gr.z - hr.z) })
      g (hipGroup df)
  else
    g.map (centerRow df)

/-- Embedding of `center_hip`.  `groups.get_group("hip")` raises
`KeyError("hip")` when the table has no row labeled `"hip"`; the aligned
column assignments raise `ValueError` when any non-hip group's index and
the hip index align to a duplicate-labeled result that must be
reindexed; otherwise the non-hip groups (in sorted label order) are
centered on the hip values and concatenated, and the hip rows, zeroed,
are appended last. -/
def center_hip (df : Table) : Except String (List NRow) :=
  if (hipGroup df).isEmpty then
    Except.error "hip"
  else if ((groupLabels df).filter (fun l => !(l == "hip"))).any
      (fun l => alignRaises ((getGroup df l).map (fun r => r.idx))
        ((hipGroup df).map (fun r => r.idx))) then
    Except.error "cannot reindex from a duplicate axis"
  else
    Except.ok
      ((((groupLabels df).filter (fun l => !(l == "hip"))).flatMap
          (fun l => centerGroup df (getGroup df l)))
        ++ (hipGroup df).map
            (fun h => { idx := h.idx, label := "hip",
                        x := some 0, y := some 0, z := some 0 }))

/-- Per-frame-per-label uniqueness: no label has two rows sharing one
frame index, so every `groupby("label")` group carries a duplicate-free
frame index. -/
def frameLabelUnique (df : Table) : Prop :=
  ∀ r ∈ df, df.countP (fun r2 => r2.label == r.label && r2.idx == r.idx) ≤ 1

instance (df : Table) : Decidable (frameLabelUnique df) :=
  inferInstanceAs (Decidable (∀ r ∈ df,
    df.countP (fun r2 => r2.label == r.label && r2.idx == r.idx) ≤ 1))

/-- A row carrying the optional `distance` column added by
`calculate_distance` (absent before the first application). -/
structure DRow where
  idx : Nat
  label : String
  x : ℚ
  y : ℚ
  z : ℚ
  distance : Option ℝ

/-- Embedding of `calculate_distance`:
`df["distance"] = np.sqrt(df.x**2 + df.y**2 + df.z**2)`, computed per row. -/
noncomputable def calculate_distance (df : List DRow) : List DRow :=
  df.map (fun r =>
    { r with
      distance :=
        some (Real.sqrt ((r.x : ℝ) ^ 2 + (r.y : ℝ) ^ 2 + (r.z : ℝ) ^ 2)) })

/-- pandas `Series.all()` on a numeric column: `true` iff every value is
truthy, i.e. nonzero. -/
def seriesAll (vs : List ℚ) : Bool := vs.all (fun v => !(v == 0))

/-- The Python comparison `b == 0` applied to a boolean `b`: in Python,
`True == 0` is `False` and `False == 0` is `True`. -/
def boolEqZero (b : Bool) : Bool := b == false

/-- Embedding of `check_hip_centered`: extracts the hip group (KeyError if
absent) and evaluates `hip['x'].all() == 0 and hip['y'].all() == 0 and
hip['z'].all() == 0` — note the source compares the boolean result of
`.all()` with the number `0`. -/
def check_hip_centered (df : Table) : Except String Bool :=
  if (hipGroup df).isEmpty then
    Except.error "hip"
  else
    Except.ok
      (boolEqZero (seriesAll ((hipGroup df).map (fun r => r.x))) &&
       boolEqZero (seriesAll ((hipGroup df).map (fun r => r.y))) &&
       boolEqZero (seriesAll ((hipGroup df).map (fun r => r.z))))

/-- The landmark names, in source order. -/
def lmks : List String := ["b1", "b2", "b3", "b4", "f1", "f2", "f3", "f4"]

/-- The eight fixed reference coordinates of `add_landmark_location`,
copied digit for digit from the source (as exact rationals). -/
def coords : List (ℚ × ℚ × ℚ) :=
  [(1.8831099474237765, 2.2504857710896258, 3.1104950213839317),
   (3.2684966975634477, 2.3323177565826185, 3.0727974914230116),
   (-2.740061407095278, 3.0620530012108063, -2.0537183009440745),
   (-3.090940351965614, 3.0070227700837804, -0.8690008794238412),
   (-2.161960556268887, 2.428982849819521, 3.5207878102359627),
   (3.868664285069503, -0.19594825889453213, 2.5292130833751956),
   (2.5104482176851417, 3.281142061125232, -2.044059905334382),
   (-3.5609489140305444, 1.7744324668075677, -1.8620419355950952)]

/-- Euclidean distance from `(x, y, z)` to `(cx, cy, cz)`: the metric
`scipy.spatial.distance.cdist` computes by default. -/
noncomputable def eudist (x y z cx cy cz : ℚ) : ℝ :=
  Real.sqrt (((x : ℝ) - (cx : ℝ)) ^ 2 + ((y : ℝ) - (cy : ℝ)) ^ 2 +
             ((z : ℝ) - (cz : ℝ)) ^ 2)

/-- A row of the output of `add_landmark_location`: the original columns
plus the appended distance columns as (column name, value) pairs. -/
structure LRow where
  idx : Nat
  label : String
  x : ℚ
  y : ℚ
  z : ℚ
  dists : List (String × ℝ)

/-- Embedding of `add_landmark_location`: each row of the copy `df_lmks`
gains one column `distance_to_coord_<name>` per reference point, holding
the cdist Euclidean distance from the row's `(x, y, z)` to that point;
the result is then re-sorted by frame index (`sort_index`). -/
noncomputable def add_landmark_location (df : Table) : List LRow :=
  (df.map (fun r =>
    { idx := r.idx, label := r.label, x := r.x, y := r.y, z := r.z,
      dists := (lmks.zip coords).map
        (fun p => ("distance_to_coord_" ++ p.1,
                   eudist r.x r.y r.z p.2.1 p.2.2.1 p.2.2.2)) })).mergeSort
    (fun a b => a.idx ≤ b.idx)

/-- The coordinate columns a `remove_rows` call may check (the function is
only ever applied to the coordinate columns; `['x','y','z']` is the
default). -/
inductive Col
  | x
  | y
  | z
deriving DecidableEq, Repr

/-- The value of a coordinate column in a row. -/
def colVal (r : Row) : Col → ℚ
  | Col.x => r.x
  | Col.y => r.y
  | Col.z => r.z

/-- The boolean mask of `remove_rows` in greater-than mode: any checked
column strictly greater than `n`. -/
def gtMask (n : ℚ) (columns : List Col) (r : Row) : Bool :=
  columns.any (fun c => n < colVal r c)

/-- The boolean mask of `remove_rows` in the other mode: any checked
column strictly less than `n`. -/
def ltMask (n : ℚ) (columns : List Col) (r : Row) : Bool :=
  columns.any (fun c => colVal r c < n)

/-- `df.loc[mask, :].index.unique()`: the distinct frame indexes of the
rows selected by the mask.  Only membership in this list is ever used. -/
def indexesToDrop (df : Table) (mask : Row → Bool) : List Nat :=
  ((df.filter mask).map (fun r => r.idx)).dedup

/-- `df.drop(indexes_to_drop)`: keep exactly the rows whose frame index is
not among the indexes to drop. -/
def dropByMask (df : Table) (mask : Row → Bool) : Table :=
  df.filter (fun r => !((indexesToDrop df mask).contains r.idx))

/-- Embedding of `remove_rows`: the mode flag selects the mask
(`'g'` compares with `>`, anything else with `<`), and every row sharing a
frame index with a masked row is dropped. -/
def remove_rows (df : Table) (n : ℚ) (columns : List Col) (ty : String) :
    Table :=
  if ty = "g" then dropByMask df (gtMask n columns)
  else dropByMask df (ltMask n columns)

/-- Embedding of `check_index_row_count`: count the rows of every frame
index (`df.index.value_counts()`), collect the indexes whose count is not
the expected one, and raise `ValueError` naming them when any exist.  The
error payload is the list of offending frame indexes named by the
message; the order in which the message names them is not modelled. -/
def check_index_row_count (df : Table) (expected_count : Nat) :
    Except (List Nat) Unit :=
  let incorrect_indexes :=
    ((df.map (fun r => r.idx)).dedup).filter
      (fun f => !(df.countP (fun r => r.idx == f) == expected_count))
  if incorrect_indexes.isEmpty then Except.ok ()
  else Except.error incorrect_indexes

/-- C7: calculate_distance is idempotent: recomputing the distance column
from the unchanged x, y, z coordinates reproduces the same table. -/
theorem calculate_distance_idempotent (df : List DRow) :
    calculate_distance (calculate_distance df) = calculate_distance df := by
  simp only [calculate_distance, List.map_map]
  exact List.map_congr_left (fun r _ => rfl)

/-- C10: check_index_row_count applied to the empty table (zero rows,
hence zero frames) returns normally for every expected count. -/
theorem check_index_row_count_empty_ok (expected_count : Nat) :
    check_index_row_count [] expected_count = Except.ok () := rfl

/-- C3 (code bug): on the hip rows (0,0,0) and (1,1,1) the function
returns True even though not every hip coordinate is zero, because the
source compares the boolean `Series.all()` with the number 0; the
function's own docstring requires the all-zero check. -/
theorem check_hip_centered_bug_eval :
    check_hip_centered [⟨0, "hip", 0, 0, 0⟩, ⟨1, "hip", 1, 1, 1⟩] =
      Except.ok true ∧
    ¬ (∀ r ∈ hipGroup ([⟨0, "hip", 0, 0, 0⟩, ⟨1, "hip", 1, 1, 1⟩] : Table),
        r.x = 0 ∧ r.y = 0 ∧ r.z = 0) :=
  ⟨rfl, by decide⟩

/-- C5: add_landmark_location keeps the row count and the original
columns, and extends every row with the eight columns
`distance_to_coord_<name>` for b1..b4, f1..f4, each holding the Euclidean
distance from the row's (x, y, z) to the corresponding reference
coordinate. -/
theorem add_landmark_location_spec (df : Table) :
    (add_landmark_location df).length = df.length ∧
    ∀ lr ∈ add_landmark_location df,
      (∃ r ∈ df, lr.idx = r.idx ∧ lr.label = r.label ∧ lr.x = r.x ∧
        lr.y = r.y ∧ lr.z = r.z) ∧
      lr.dists.map Prod.fst =
        ["distance_to_coord_b1", "distance_to_coord_b2",
         "distance_to_coord_b3", "distance_to_coord_b4",
         "distance_to_coord_f1", "distance_to_coord_f2",
         "distance_to_coord_f3", "distance_to_coord_f4"] ∧
      ∀ p ∈ lmks.zip coords,
        ("distance_to_coord_" ++ p.1,
         eudist lr.x lr.y lr.z p.2.1 p.2.2.1 p.2.2.2) ∈ lr.dists := by
  constructor
  · rw [add_landmark_location, List.length_mergeSort, List.length_map]
  · intro lr hlr
    rw [add_landmark_location, List.mem_mergeSort, List.mem_map] at hlr
    obtain ⟨r, hr, hlreq⟩ := hlr
    subst hlreq
    refine ⟨⟨r, hr, rfl, rfl, rfl, rfl, rfl⟩, rfl, ?_⟩
    intro p hp
    exact List.mem_map.mpr ⟨p, hp, rfl⟩

/-- Witness for C5 at a one-row table. -/
theorem add_landmark_location_spec_witness :
    (add_landmark_location [⟨0, "hip", 0, 0, 0⟩]).length =
      ([⟨0, "hip", 0, 0, 0⟩] : Table).length :=
  (add_landmark_location_spec [⟨0, "hip", 0, 0, 0⟩]).1

/-- Membership in `indexes_to_drop`: the frame indexes of masked rows. -/
theorem mem_indexesToDrop {df : Table} {mask : Row → Bool} {f : Nat} :
    f ∈ indexesToDrop df mask ↔ ∃ r ∈ df, mask r = true ∧ r.idx = f := by
  simp only [indexesToDrop, List.mem_dedup, List.mem_map, List.mem_filter]
  constructor
  · rintro ⟨r, ⟨hrdf, hrm⟩, hidx⟩
    exact ⟨r, hrdf, hrm, hidx⟩
  · rintro ⟨r, hrdf, hrm, hidx⟩
    exact ⟨r, ⟨hrdf, hrm⟩, hidx⟩

/-- Whole-frame semantics of `df.drop(indexes_to_drop)`: a frame with a
masked row disappears entirely; a frame with no masked row keeps all of
its rows unchanged, in order. -/
theorem dropByMask_spec (df : Table) (mask : Row → Bool) (f : Nat) :
    ((∃ r ∈ df, r.idx = f ∧ mask r = true) →
       ∀ r2 ∈ dropByMask df mask, r2.idx ≠ f) ∧
    ((∀ r ∈ df, r.idx = f → mask r = false) →
       (dropByMask df mask).filter (fun r => r.idx == f) =
         df.filter (fun r => r.idx == f)) := by
  constructor
  · rintro ⟨r, hrdf, hidx, hmask⟩ r2 hr2 hr2f
    rw [dropByMask, List.mem_filter] at hr2
    have hin : (indexesToDrop df mask).contains r2.idx = true :=
      List.elem_iff.mpr (mem_indexesToDrop.mpr ⟨r, hrdf, hmask, by rw [hidx, hr2f]⟩)
    rw [hin] at hr2
    exact Bool.false_ne_true hr2.2
  · intro hgood
    rw [dropByMask, List.filter_filter]
    apply List.filter_congr
    intro r hrdf
    cases hif : (r.idx == f) with
    | false => simp [hif]
    | true =>
      have hrf : r.idx = f := by simpa using hif
      have hnotin : ¬ r.idx ∈ indexesToDrop df mask := by
        rw [mem_indexesToDrop]
        rintro ⟨rb, hrbdf, hrbmask, hrbidx⟩
        have : mask rb = false := hgood rb hrbdf (by rw [hrbidx, hrf])
        rw [this] at hrbmask
        exact Bool.false_ne_true hrbmask
      have hcont : (indexesToDrop df mask).contains r.idx = false := by
        cases hc : (indexesToDrop df mask).contains r.idx with
        | false => rfl
        | true => exact absurd (List.elem_iff.mp hc) hnotin
      simp only [hif, hcont, Bool.not_false, Bool.and_true]

/-- C2: remove_rows in greater-than mode drops rows at whole-frame
granularity: a frame any of whose rows exceeds the threshold in any
checked column loses all of its rows, and a frame all of whose checked
values are at most the threshold keeps all of its rows unchanged. -/
theorem remove_rows_frame_granularity (df : Table) (n : ℚ)
    (columns : List Col) (f : Nat) :
    ((∃ r ∈ df, r.idx = f ∧ ∃ c ∈ columns, n < colVal r c) →
       ∀ r2 ∈ remove_rows df n columns "g", r2.idx ≠ f) ∧
    ((∀ r ∈ df, r.idx = f → ∀ c ∈ columns, colVal r c ≤ n) →
       (remove_rows df n columns "g").filter (fun r => r.idx == f) =
         df.filter (fun r => r.idx == f)) := by
  have hg : remove_rows df n columns "g" = dropByMask df (gtMask n columns) := by
    rw [remove_rows, if_pos rfl]
  constructor
  · rintro ⟨r, hrdf, hidx, c, hc, hlt⟩
    rw [hg]
    refine (dropByMask_spec df (gtMask n columns) f).1 ⟨r, hrdf, hidx, ?_⟩
    rw [gtMask, List.any_eq_true]
    exact ⟨c, hc, by simpa using hlt⟩
  · intro hgood
    rw [hg]
    apply (dropByMask_spec df (gtMask n columns) f).2
    intro r hrdf hidx
    rw [gtMask, List.any_eq_false]
    intro c hc
    simp only [decide_eq_true_eq, not_lt]
    exact hgood r hrdf hidx c hc

/-- Witness for C2: with threshold 3, the frame 0 containing an x-value 5
is dropped entirely and the frame 1 with all values at most 3 is kept
unchanged. -/
theorem remove_rows_frame_granularity_witness :
    (∀ r2 ∈ remove_rows
        [⟨0, "a", 5, 0, 0⟩, ⟨0, "b", 1, 1, 1⟩, ⟨1, "a", 1, 1, 1⟩]
        3 [Col.x, Col.y, Col.z] "g", r2.idx ≠ 0) ∧
    (remove_rows [⟨0, "a", 5, 0, 0⟩, ⟨0, "b", 1, 1, 1⟩, ⟨1, "a", 1, 1, 1⟩]
        3 [Col.x, Col.y, Col.z] "g").filter (fun r => r.idx == 1) =
      ([⟨0, "a", 5, 0, 0⟩, ⟨0, "b", 1, 1, 1⟩, ⟨1, "a", 1, 1, 1⟩] : Table).filter
        (fun r => r.idx == 1) :=
  ⟨(remove_rows_frame_granularity _ 3 _ 0).1 (by decide),
   (remove_rows_frame_granularity _ 3 _ 1).2 (by decide)⟩

/-- C9: any mode flag other than "g" — not only "l" — selects the strict
less-than mask, with the same whole-frame dropping; the flag is never
validated and no error is raised. -/
theorem remove_rows_unrecognized_mode (df : Table) (n : ℚ)
    (columns : List Col) (ty : String) (hty : ty ≠ "g") :
    remove_rows df n columns ty = remove_rows df n columns "l" ∧
    ∀ f : Nat,
      ((∃ r ∈ df, r.idx = f ∧ ∃ c ∈ columns, colVal r c < n) →
         ∀ r2 ∈ remove_rows df n columns ty, r2.idx ≠ f) ∧
      ((∀ r ∈ df, r.idx = f → ∀ c ∈ columns, n ≤ colVal r c) →
         (remove_rows df n columns ty).filter (fun r => r.idx == f) =
           df.filter (fun r => r.idx == f)) := by
  have hl : remove_rows df n columns ty = dropByMask df (ltMask n columns) := by
    rw [remove_rows, if_neg hty]
  have hl2 : remove_rows df n columns "l" = dropByMask df (ltMask n columns) := by
    rw [remove_rows, if_neg (by decide)]
  refine ⟨by rw [hl, hl2], ?_⟩
  intro f
  constructor
  · rintro ⟨r, hrdf, hidx, c, hc, hlt⟩
    rw [hl]
    refine (dropByMask_spec df (ltMask n columns) f).1 ⟨r, hrdf, hidx, ?_⟩
    rw [ltMask, List.any_eq_true]
    exact ⟨c, hc, by simpa using hlt⟩
  · intro hgood
    rw [hl]
    apply (dropByMask_spec df (ltMask n columns) f).2
    intro r hrdf hidx
    rw [ltMask, List.any_eq_false]
    intro c hc
    simp only [decide_eq_true_eq, not_lt]
    exact hgood r hrdf hidx c hc

/-- Witness for C9 at the unrecognized mode flag "bogus". -/
theorem remove_rows_unrecognized_mode_witness :
    remove_rows [⟨0, "a", 5, 0, 0⟩, ⟨1, "a", 1, 1, 1⟩] 3 [Col.x] "bogus" =
      remove_rows [⟨0, "a", 5, 0, 0⟩, ⟨1, "a", 1, 1, 1⟩] 3 [Col.x] "l" :=
  (remove_rows_unrecognized_mode _ 3 [Col.x] "bogus" (by decide)).1

/-- C4: check_index_row_count returns normally iff every frame has
exactly the expected row count, raises otherwise, and the raised error
names exactly the frame indexes whose counts deviate. -/
theorem check_index_row_count_spec (df : Table) (e : Nat) :
    (check_index_row_count df e = Except.ok () ↔
       ∀ f ∈ df.map (fun r => r.idx), df.countP (fun r => r.idx == f) = e) ∧
    ((∃ bad, check_index_row_count df e = Except.error bad) ↔
       ∃ f ∈ df.map (fun r => r.idx), df.countP (fun r => r.idx == f) ≠ e) ∧
    (∀ bad, check_index_row_count df e = Except.error bad →
       ∀ f : Nat, f ∈ bad ↔
         (f ∈ df.map (fun r => r.idx) ∧ df.countP (fun r => r.idx == f) ≠ e)) := by
  have hmem : ∀ f : Nat,
      f ∈ ((df.map (fun r => r.idx)).dedup).filter
          (fun f => !(df.countP (fun r => r.idx == f) == e)) ↔
        (f ∈ df.map (fun r => r.idx) ∧
          df.countP (fun r => r.idx == f) ≠ e) := by
    intro f
    rw [List.mem_filter, List.mem_dedup]
    constructor
    · rintro ⟨h1, h2⟩
      refine ⟨h1, ?_⟩
      intro heq
      rw [heq] at h2
      simp at h2
    · rintro ⟨h1, h2⟩
      refine ⟨h1, ?_⟩
      simpa using h2
  cases hie : (((df.map (fun r => r.idx)).dedup).filter
      (fun f => !(df.countP (fun r => r.idx == f) == e))).isEmpty with
  | true =>
    have hnil := List.isEmpty_iff.mp hie
    have hch : check_index_row_count df e = Except.ok () := by
      simp only [check_index_row_count]
      rw [hie]
      rfl
    refine ⟨?_, ?_, ?_⟩
    · rw [hch]
      constructor
      · intro _ f hf
        by_contra hne
        have hfin := (hmem f).mpr ⟨hf, hne⟩
        rw [hnil] at hfin
        exact absurd hfin (List.not_mem_nil f)
      · intro _
        rfl
    · rw [hch]
      constructor
      · rintro ⟨bad, hbad⟩
        exact Except.noConfusion hbad
      · rintro ⟨f, hf, hne⟩
        have hfin := (hmem f).mpr ⟨hf, hne⟩
        rw [hnil] at hfin
        exact absurd hfin (List.not_mem_nil f)
    · intro bad hbad
      rw [hch] at hbad
      exact Except.noConfusion hbad
  | false =>
    have hnenil := List.isEmpty_eq_false.mp hie
    have hch : check_index_row_count df e =
        Except.error (((df.map (fun r => r.idx)).dedup).filter
          (fun f => !(df.countP (fun r => r.idx == f) == e))) := by
      simp only [check_index_row_count]
      rw [hie]
      rfl
    obtain ⟨f0, hf0⟩ := List.exists_mem_of_ne_nil _ hnenil
    refine ⟨?_, ?_, ?_⟩
    · constructor
      · intro h
        rw [hch] at h
        exact Except.noConfusion h
      · intro hall
        have hm := (hmem f0).mp hf0
        exact absurd (hall f0 hm.1) hm.2
    · constructor
      · intro _
        exact ⟨f0, ((hmem f0).mp hf0).1, ((hmem f0).mp hf0).2⟩
      · intro _
        exact ⟨_, hch⟩
    · intro bad hbad
      rw [hch] at hbad
      injection hbad with hbadeq
      intro f
      rw [← hbadeq]
      exact hmem f

/-- Witness for C4: with expected count 2, the frame 1 having a single
row makes the call raise, naming a deviating frame. -/
theorem check_index_row_count_spec_witness :
    ∃ bad, check_index_row_count
        [⟨0, "a", 0, 0, 0⟩, ⟨0, "b", 0, 0, 0⟩, ⟨1, "a", 0, 0, 0⟩] 2 =
      Except.error bad :=
  (check_index_row_count_spec _ 2).2.1.mpr ⟨1, by decide, by decide⟩

/-- Inserting into a sorted label list is a permutation of consing. -/
theorem insertLabel_perm (s : String) (l : List String) :
    (insertLabel s l).Perm (s :: l) := by
  induction l with
  | nil => exact List.Perm.refl _
  | cons a t ih =>
    rw [insertLabel]
    cases strLe s a with
    | true => exact List.Perm.refl _
    | false => exact (ih.cons a).trans (List.Perm.swap s a t)

/-- Sorting the label list permutes it. -/
theorem sortLabels_perm (l : List String) : (sortLabels l).Perm l := by
  induction l with
  | nil => exact List.Perm.refl _
  | cons a t ih =>
    rw [sortLabels]
    exact (insertLabel_perm a (sortLabels t)).trans (ih.cons a)

/-- Congruence for flatMap over a label list. -/
theorem flatMap_congr_labels {β : Type} {f g : String → List β} :
    ∀ L : List String, (∀ a ∈ L, f a = g a) → L.flatMap f = L.flatMap g := by
  intro L h
  induction L with
  | nil => rfl
  | cons a t ih =>
    rw [List.flatMap_cons, List.flatMap_cons, h a (List.mem_cons_self a t),
        ih (fun b hb => h b (List.mem_cons_of_mem a hb))]

/-- Concatenating the groups of a duplicate-free list of labels covering
every row's label is a permutation of the table: `groupby` partitions the
rows. -/
theorem flatMap_getGroup_perm :
    ∀ (L : List String) (df : Table), L.Nodup →
      (∀ r ∈ df, r.label ∈ L) →
      (L.flatMap (fun l => getGroup df l)).Perm df := by
  intro L
  induction L with
  | nil =>
    intro df _ hcov
    have hdfnil : df = [] := by
      cases df with
      | nil => rfl
      | cons a t => exact absurd (hcov a (List.mem_cons_self a t)) (List.not_mem_nil _)
    rw [hdfnil]
    exact List.Perm.refl _
  | cons l L ih =>
    intro df hnd hcov
    rw [List.flatMap_cons]
    have hlnotin : l ∉ L := (List.nodup_cons.mp hnd).1
    have hndL : L.Nodup := (List.nodup_cons.mp hnd).2
    have hgroups : L.flatMap (fun l2 => getGroup df l2) =
        L.flatMap (fun l2 => getGroup (df.filter (fun r => !(r.label == l))) l2) := by
      apply flatMap_congr_labels
      intro l2 hl2
      have hne : l2 ≠ l := fun h => hlnotin (h ▸ hl2)
      rw [getGroup, getGroup, List.filter_filter]
      apply List.filter_congr
      intro r _
      cases hrl : (r.label == l2) with
      | false => simp [hrl]
      | true =>
        have hr2 : r.label = l2 := by simpa using hrl
        have hr3 : (r.label == l) = false := by
          simp only [beq_eq_false_iff_ne, ne_eq, hr2]
          exact hne
        simp [hrl, hr3]
    have hcov2 : ∀ r ∈ df.filter (fun r => !(r.label == l)), r.label ∈ L := by
      intro r hr
      rw [List.mem_filter] at hr
      have hrl : r.label ≠ l := by simpa using hr.2
      cases List.mem_cons.mp (hcov r hr.1) with
      | inl h => exact absurd h hrl
      | inr h => exact h
    have ihp := ih (df.filter (fun r => !(r.label == l))) hndL hcov2
    rw [hgroups]
    exact (List.Perm.append_left (getGroup df l) ihp).trans
      (List.filter_append_perm (fun r : Row => r.label == l) df)


/-- Inserting into a sorted index list is a permutation of consing. -/
theorem insertNat_perm (n : Nat) (l : List Nat) :
    (insertNat n l).Perm (n :: l) := by
  induction l with
  | nil => exact List.Perm.refl _
  | cons a t ih =>
    by_cases h : n ≤ a
    · rw [insertNat, if_pos h]
    · rw [insertNat, if_neg h]
      exact (ih.cons a).trans (List.Perm.swap n a t)

/-- Sorting an index list permutes it. -/
theorem sortNat_perm (l : List Nat) : (sortNat l).Perm l := by
  induction l with
  | nil => exact List.Perm.refl _
  | cons a t ih =>
    rw [sortNat]
    exact (insertNat_perm a (sortNat t)).trans (ih.cons a)

/-- hasDup is the boolean complement of Nodup. -/
theorem hasDup_eq_false_iff :
    ∀ l : List Nat, hasDup l = false ↔ l.Nodup := by
  intro l
  induction l with
  | nil =>
    rw [hasDup]
    simp
  | cons a t ih =>
    rw [hasDup, List.nodup_cons, Bool.or_eq_false_iff]
    constructor
    · rintro ⟨h1, h2⟩
      refine ⟨fun hmem => ?_, ih.mp h2⟩
      have hc : t.contains a = true := List.elem_iff.mpr hmem
      rw [h1] at hc
      exact Bool.false_ne_true hc
    · rintro ⟨h1, h2⟩
      refine ⟨?_, ih.mpr h2⟩
      cases hc : t.contains a with
      | false => rfl
      | true => exact absurd (List.elem_iff.mp hc) h1

/-- Counting a frame index in the mapped index column counts the rows of
that frame. -/
theorem count_map_idx :
    ∀ (t : Table) (f : Nat),
      (t.map (fun r => r.idx)).count f = t.countP (fun r => r.idx == f) := by
  intro t f
  induction t with
  | nil => rfl
  | cons a t2 ih =>
    rw [List.map_cons, List.count_cons, List.countP_cons, ih]

/-- Under frameLabelUnique, every label group carries a duplicate-free
frame index. -/
theorem getGroup_idx_nodup (df : Table) (hu : frameLabelUnique df)
    (l : String) : ((getGroup df l).map (fun r => r.idx)).Nodup := by
  rw [List.nodup_iff_count_le_one]
  intro f
  rw [count_map_idx, getGroup, List.countP_filter]
  by_cases hex : ∃ r ∈ df, r.idx = f ∧ r.label = l
  · obtain ⟨r0, hr0, hidx, hlab⟩ := hex
    have hle := hu r0 hr0
    have heq : df.countP (fun r => r.idx == f && r.label == l) =
        df.countP (fun r2 => r2.label == r0.label && r2.idx == r0.idx) := by
      apply List.countP_congr
      intro r _
      rw [hidx, hlab]
      rw [Bool.and_eq_true, Bool.and_eq_true]
      exact ⟨fun h => ⟨h.2, h.1⟩, fun h => ⟨h.2, h.1⟩⟩
    rw [heq]
    exact hle
  · have hz : df.countP (fun r => r.idx == f && r.label == l) = 0 := by
      rw [List.countP_eq_zero]
      intro r hr hp
      rw [Bool.and_eq_true, beq_iff_eq, beq_iff_eq] at hp
      exact hex ⟨r, hr, hp.1, hp.2⟩
    rw [hz]
    exact Nat.zero_le 1

/-- Join multiplicities of duplicate-free indexes are at most one. -/
theorem joinMult_le_one {a b : Nat} (ha : a ≤ 1) (hb : b ≤ 1) :
    joinMult a b ≤ 1 := by
  rw [joinMult]
  split
  · rename_i h
    have ha1 : a = 1 := by omega
    have hb1 : b = 1 := by omega
    rw [ha1, hb1]
  · omega

/-- A flatMap whose pieces are empty or the singleton of their
duplicate-free seed is duplicate-free. -/
theorem flatMap_nodup_of_subsingleton {f : Nat → List Nat} :
    ∀ L : List Nat, L.Nodup → (∀ l ∈ L, f l = [] ∨ f l = [l]) →
      (L.flatMap f).Nodup := by
  intro L
  induction L with
  | nil =>
    intro _ _
    exact List.nodup_nil
  | cons a t ih =>
    intro hnd hf
    rw [List.flatMap_cons, List.nodup_append]
    obtain ⟨hat, hts⟩ := List.nodup_cons.mp hnd
    refine ⟨?_, ih hts (fun l hl => hf l (List.mem_cons_of_mem a hl)), ?_⟩
    · rcases hf a (List.mem_cons_self a t) with h | h
      · rw [h]
        exact List.nodup_nil
      · rw [h]
        exact List.nodup_singleton a
    · intro x hx hx2
      have hxa : x = a := by
        rcases hf a (List.mem_cons_self a t) with h | h
        · rw [h] at hx
          exact absurd hx (List.not_mem_nil x)
        · rw [h] at hx
          exact List.mem_singleton.mp hx
      rw [List.mem_flatMap] at hx2
      obtain ⟨l, hlt, hxl⟩ := hx2
      have hxl2 : x = l := by
        rcases hf l (List.mem_cons_of_mem a hlt) with h | h
        · rw [h] at hxl
          exact absurd hxl (List.not_mem_nil x)
        · rw [h] at hxl
          exact List.mem_singleton.mp hxl
      rw [hxa] at hxl2
      rw [← hxl2] at hlt
      exact hat hlt

/-- Aligning two duplicate-free indexes yields a duplicate-free join
index. -/
theorem alignIdx_nodup (G H : List Nat) (hG : G.Nodup) (hH : H.Nodup) :
    (alignIdx G H).Nodup := by
  rw [alignIdx]
  apply flatMap_nodup_of_subsingleton
  · exact (sortNat_perm _).nodup_iff.mpr (List.nodup_dedup _)
  · intro l _
    have h1 : G.count l ≤ 1 := List.nodup_iff_count_le_one.mp hG l
    have h2 : H.count l ≤ 1 := List.nodup_iff_count_le_one.mp hH l
    rcases Nat.le_one_iff_eq_zero_or_eq_one.mp (joinMult_le_one h1 h2)
      with h | h
    · left
      rw [h, List.replicate_zero]
    · right
      rw [h, List.replicate_one]

/-- Aligning two duplicate-free indexes never raises. -/
theorem alignRaises_eq_false (G H : List Nat) (hG : G.Nodup)
    (hH : H.Nodup) : alignRaises G H = false := by
  rw [alignRaises]
  split
  · rfl
  · split
    · rfl
    · exact (hasDup_eq_false_iff _).mpr (alignIdx_nodup G H hG hH)

/-- In a table with a duplicate-free frame index, first-match lookup by
frame index finds each row itself. -/
theorem find_idx_of_nodup :
    ∀ l : Table, ((l.map (fun r => r.idx)).Nodup) →
      ∀ r ∈ l, l.find? (fun r2 => r2.idx == r.idx) = some r := by
  intro l
  induction l with
  | nil =>
    intro _ r hr
    exact absurd hr (List.not_mem_nil r)
  | cons a t ih =>
    intro hnd r hr
    rw [List.map_cons, List.nodup_cons] at hnd
    cases List.mem_cons.mp hr with
    | inl heq =>
      subst heq
      exact List.find?_cons_of_pos _ (by simp)
    | inr hmem =>
      have hne : ¬ (a.idx == r.idx) = true := by
        rw [beq_iff_eq]
        intro hh
        exact hnd.1 (hh ▸ List.mem_map.mpr ⟨r, hmem, rfl⟩)
      rw [@List.find?_cons_of_neg _ (fun r2 => r2.idx == r.idx) a t hne]
      exact ih hnd.2 r hmem

/-- On the identical-index fast path with a duplicate-free hip index,
positional subtraction agrees with per-frame lookup. -/
theorem zipWith_center_eq_map (df : Table)
    (hH : ((hipGroup df).map (fun r => r.idx)).Nodup) :
    ∀ g hip2 : Table, (∀ x ∈ hip2, x ∈ hipGroup df) →
      g.map (fun r => r.idx) = hip2.map (fun r => r.idx) →
      List.zipWith
        (fun gr hr => ({ idx := gr.idx, label := gr.label,
                         x := some (gr.x - hr.x), y := some (gr.y - hr.y),
                         z := some (gr.z - hr.z) } : NRow)) g hip2 =
        g.map (centerRow df) := by
  intro g
  induction g with
  | nil =>
    intro hip2 _ _
    rfl
  | cons gr g2 ih =>
    intro hip2 hsub hmapeq
    cases hip2 with
    | nil => exact absurd hmapeq (by simp)
    | cons hr hip3 =>
      rw [List.map_cons, List.map_cons] at hmapeq
      injection hmapeq with h1 h2
      rw [List.zipWith_cons_cons, List.map_cons]
      have hfind : (hipGroup df).find? (fun r2 => r2.idx == hr.idx) = some hr :=
        find_idx_of_nodup (hipGroup df) hH hr (hsub hr (List.mem_cons_self hr hip3))
      congr 1
      · rw [centerRow, hipAt, h1, hfind]
        rfl
      · exact ih hip3 (fun x hx => hsub x (List.mem_cons_of_mem hr hx)) h2

/-- With a duplicate-free hip index, the group-centering step reduces to
the per-frame lookup, on the fast path and the lookup path alike. -/
theorem centerGroup_eq_map (df g : Table)
    (hH : ((hipGroup df).map (fun r => r.idx)).Nodup) :
    centerGroup df g = g.map (centerRow df) := by
  rw [centerGroup]
  split
  next hcond => exact zipWith_center_eq_map df hH g (hipGroup df) (fun x hx => hx) hcond
  next => rfl

/-- On a table with a hip row and per-frame-per-label uniqueness, the
aligned assignments never raise and center_hip returns the concatenated
per-frame-lookup groups followed by the zeroed hip rows. -/
theorem center_hip_eq_ok_of_unique (df : Table)
    (hhip : ∃ r ∈ df, r.label = "hip") (hu : frameLabelUnique df) :
    center_hip df = Except.ok
      ((((groupLabels df).filter (fun l => !(l == "hip"))).flatMap
          (fun l => (getGroup df l).map (centerRow df)))
        ++ (hipGroup df).map
            (fun h => { idx := h.idx, label := "hip",
                        x := some 0, y := some 0, z := some 0 })) := by
  obtain ⟨r0, hr0df, hr0l⟩ := hhip
  have hr0mem : r0 ∈ hipGroup df := by
    rw [hipGroup, getGroup, List.mem_filter]
    exact ⟨hr0df, by simp [hr0l]⟩
  have hnemp : (hipGroup df).isEmpty = false :=
    List.isEmpty_eq_false.mpr (List.ne_nil_of_mem hr0mem)
  have hHnodup : ((hipGroup df).map (fun r => r.idx)).Nodup := by
    rw [hipGroup]
    exact getGroup_idx_nodup df hu "hip"
  have hany : (((groupLabels df).filter (fun l => !(l == "hip"))).any
      (fun l => alignRaises ((getGroup df l).map (fun r => r.idx))
        ((hipGroup df).map (fun r => r.idx)))) = false := by
    rw [List.any_eq_false]
    intro l _
    rw [alignRaises_eq_false ((getGroup df l).map (fun r => r.idx))
      ((hipGroup df).map (fun r => r.idx))
      (getGroup_idx_nodup df hu l) hHnodup]
    exact Bool.false_ne_true
  have hflat : ((groupLabels df).filter (fun l => !(l == "hip"))).flatMap
      (fun l => centerGroup df (getGroup df l)) =
      ((groupLabels df).filter (fun l => !(l == "hip"))).flatMap
      (fun l => (getGroup df l).map (centerRow df)) :=
    flatMap_congr_labels _ (fun l _ => centerGroup_eq_map df (getGroup df l) hHnodup)
  simp only [center_hip]
  rw [hnemp, hany, hflat]
  rfl

/-- C8 counterexample: a table containing a hip group in which frame 0
has two hip rows and a head row; the aligned assignment raises the
duplicate-axis ValueError, so no output table exists. -/
theorem center_hip_duplicate_hip_counterexample :
    center_hip [⟨0, "hip", 1, 1, 1⟩, ⟨0, "hip", 2, 2, 2⟩,
                ⟨0, "head", 5, 5, 5⟩] =
      Except.error "cannot reindex from a duplicate axis" := rfl

/-- C8 (amended with per-frame-per-label uniqueness): center_hip keeps
exactly the input rows — the multiset of (frame index, label) pairs of
the output equals the input's, so the row count is unchanged, the label
column preserved, and only the coordinates replaced. -/
theorem center_hip_preserves_rows (df : Table)
    (hhip : ∃ r ∈ df, r.label = "hip") (hu : frameLabelUnique df) :
    ∃ out, center_hip df = Except.ok out ∧
      (out.map (fun nr => (nr.idx, nr.label))).Perm
        (df.map (fun r => (r.idx, r.label))) := by
  refine ⟨_, center_hip_eq_ok_of_unique df hhip hu, ?_⟩
  rw [List.map_append, List.map_flatMap]
  have hA2 : ((groupLabels df).filter (fun l => !(l == "hip"))).flatMap
      (fun l => List.map (fun nr => (nr.idx, nr.label))
        ((getGroup df l).map (centerRow df))) =
      ((groupLabels df).filter (fun l => !(l == "hip"))).flatMap
      (fun l => (getGroup df l).map (fun r => (r.idx, r.label))) := by
    apply flatMap_congr_labels
    intro l _
    rw [List.map_map]
    exact List.map_congr_left (fun r _ => rfl)
  have hB2 : List.map (fun nr => (nr.idx, nr.label)) ((hipGroup df).map
      (fun h => ({ idx := h.idx, label := "hip",
                   x := some 0, y := some 0, z := some 0 } : NRow))) =
      (hipGroup df).map (fun r => (r.idx, r.label)) := by
    rw [List.map_map]
    apply List.map_congr_left
    intro h hm
    have hl : h.label = "hip" := by
      rw [hipGroup, getGroup, List.mem_filter] at hm
      simpa using hm.2
    simp [Function.comp, hl]
  rw [hA2, hB2]
  have hnodup : (((groupLabels df).filter (fun l => !(l == "hip"))) ++
      ["hip"]).Nodup := by
    rw [List.nodup_append]
    refine ⟨((sortLabels_perm _).nodup_iff.mpr (List.nodup_dedup _)).filter _,
      List.nodup_singleton _, ?_⟩
    intro a ha hb
    rw [List.mem_filter] at ha
    rw [List.mem_singleton] at hb
    rw [hb] at ha
    simp at ha
  have hcov : ∀ r ∈ df, r.label ∈
      ((groupLabels df).filter (fun l => !(l == "hip"))) ++ ["hip"] := by
    intro r hr
    rw [List.mem_append]
    by_cases hl : r.label = "hip"
    · right
      rw [hl]
      exact List.mem_singleton.mpr rfl
    · left
      rw [List.mem_filter]
      refine ⟨?_, by simp [hl]⟩
      rw [groupLabels, (sortLabels_perm _).mem_iff, List.mem_dedup]
      exact List.mem_map.mpr ⟨r, hr, rfl⟩
  have hperm := (flatMap_getGroup_perm _ df hnodup hcov).map
    (fun r => (r.idx, r.label))
  rw [List.map_flatMap, List.flatMap_append, List.flatMap_cons,
      List.flatMap_nil, List.append_nil] at hperm
  simpa [hipGroup] using hperm

/-- Witness for C8 at a two-row table with one hip row. -/
theorem center_hip_preserves_rows_witness :
    ∃ out, center_hip [⟨0, "hip", 1, 2, 3⟩, ⟨0, "head", 4, 5, 6⟩] =
        Except.ok out ∧
      (out.map (fun nr => (nr.idx, nr.label))).Perm
        (([⟨0, "hip", 1, 2, 3⟩, ⟨0, "head", 4, 5, 6⟩] : Table).map
          (fun r => (r.idx, r.label))) :=
  center_hip_preserves_rows _
    ⟨⟨0, "hip", 1, 2, 3⟩, List.mem_cons_self _ _, rfl⟩ (by decide)

/-- C1 counterexamples: on the empty table the hypothesis "each frame
has exactly one hip row" holds vacuously yet `get_group("hip")` raises
KeyError and no table is produced; and on a table where each frame has
exactly one hip row but the head label has two rows in frame 0, the
aligned assignment raises the duplicate-axis ValueError. -/
theorem center_hip_centers_frames_counterexample :
    center_hip ([] : Table) = Except.error "hip" ∧
    center_hip [⟨0, "hip", 1, 2, 3⟩, ⟨1, "hip", 9, 9, 9⟩,
                ⟨0, "head", 3, 3, 3⟩, ⟨0, "head", 4, 4, 4⟩] =
      Except.error "cannot reindex from a duplicate axis" :=
  ⟨rfl, rfl⟩

/-- C1 (amended with nonemptiness and per-frame-per-label uniqueness):
for every nonempty table in which each frame has exactly one hip row and
no label has two rows in one frame, center_hip succeeds, every hip row
of the output is (0,0,0), and every non-hip row of the output equals an
input row of its frame and label with the frame's input hip coordinates
subtracted. -/
theorem center_hip_centers_frames (df : Table) (hne : df ≠ [])
    (hu : frameLabelUnique df)
    (hone : ∀ f ∈ df.map (fun r => r.idx),
      df.countP (fun r => r.label == "hip" && r.idx == f) = 1) :
    ∃ out, center_hip df = Except.ok out ∧
      ∀ nr ∈ out,
        (nr.label = "hip" →
          nr.x = some 0 ∧ nr.y = some 0 ∧ nr.z = some 0) ∧
        (nr.label ≠ "hip" → ∃ r ∈ df, ∃ h ∈ df,
          h.label = "hip" ∧ h.idx = nr.idx ∧ r.label = nr.label ∧
          r.idx = nr.idx ∧ nr.x = some (r.x - h.x) ∧
          nr.y = some (r.y - h.y) ∧ nr.z = some (r.z - h.z)) := by
  obtain ⟨r0, hr0⟩ : ∃ r0, r0 ∈ df := by
    cases df with
    | nil => exact absurd rfl hne
    | cons a t => exact ⟨a, List.mem_cons_self a t⟩
  have hc0 := hone r0.idx (List.mem_map.mpr ⟨r0, hr0, rfl⟩)
  have hpos : 0 < df.countP (fun r => r.label == "hip" && r.idx == r0.idx) := by
    rw [hc0]
    exact Nat.one_pos
  obtain ⟨h0, hh0df, hh0p⟩ := List.countP_pos_iff.mp hpos
  rw [Bool.and_eq_true, beq_iff_eq, beq_iff_eq] at hh0p
  refine ⟨_, center_hip_eq_ok_of_unique df ⟨h0, hh0df, hh0p.1⟩ hu, ?_⟩
  intro nr hnr
  rw [List.mem_append] at hnr
  cases hnr with
  | inr hB =>
    rw [List.mem_map] at hB
    obtain ⟨h, hhmem, heq⟩ := hB
    subst heq
    exact ⟨fun _ => ⟨rfl, rfl, rfl⟩, fun hcontra => absurd rfl hcontra⟩
  | inl hA =>
    rw [List.mem_flatMap] at hA
    obtain ⟨l, hlmem, hnrmem⟩ := hA
    rw [List.mem_filter] at hlmem
    have hlne : l ≠ "hip" := by simpa using hlmem.2
    rw [List.mem_map] at hnrmem
    obtain ⟨r, hrg, hreq⟩ := hnrmem
    rw [getGroup, List.mem_filter] at hrg
    have hrdf := hrg.1
    have hrl : r.label = l := by simpa using hrg.2
    have hcnt := hone r.idx (List.mem_map.mpr ⟨r, hrdf, rfl⟩)
    have hpos2 : 0 < df.countP (fun rr => rr.label == "hip" && rr.idx == r.idx) := by
      rw [hcnt]
      exact Nat.one_pos
    obtain ⟨h2, hh2df, hh2p⟩ := List.countP_pos_iff.mp hpos2
    rw [Bool.and_eq_true, beq_iff_eq, beq_iff_eq] at hh2p
    have hh2g : h2 ∈ hipGroup df := by
      rw [hipGroup, getGroup, List.mem_filter]
      exact ⟨hh2df, by simp [hh2p.1]⟩
    cases hfind : (hipGroup df).find? (fun hr => hr.idx == r.idx) with
    | none =>
      exact absurd (by simp [hh2p.2] : (h2.idx == r.idx) = true)
        (List.find?_eq_none.mp hfind h2 hh2g)
    | some h3 =>
      have hh3g := List.mem_of_find?_eq_some hfind
      have hh3idx : h3.idx = r.idx := by simpa using List.find?_some hfind
      have hh3df : h3 ∈ df := (List.mem_filter.mp hh3g).1
      have hh3hip : h3.label = "hip" := by
        simpa using (List.mem_filter.mp hh3g).2
      subst hreq
      constructor
      · intro habs
        have hrhip : r.label = "hip" := habs
        rw [hrl] at hrhip
        exact absurd hrhip hlne
      · intro _
        refine ⟨r, hrdf, h3, hh3df, hh3hip, hh3idx, rfl, rfl, ?_, ?_, ?_⟩
        · show (hipAt df r.idx).map (fun h => r.x - h.x) = some (r.x - h3.x)
          rw [hipAt, hfind]
          rfl
        · show (hipAt df r.idx).map (fun h => r.y - h.y) = some (r.y - h3.y)
          rw [hipAt, hfind]
          rfl
        · show (hipAt df r.idx).map (fun h => r.z - h.z) = some (r.z - h3.z)
          rw [hipAt, hfind]
          rfl

/-- Witness for C1 at a one-frame table with a hip and a head row. -/
theorem center_hip_centers_frames_witness :
    ∃ out, center_hip [⟨0, "hip", 1, 2, 3⟩, ⟨0, "head", 4, 5, 6⟩] =
        Except.ok out ∧
      ∀ nr ∈ out,
        (nr.label = "hip" →
          nr.x = some 0 ∧ nr.y = some 0 ∧ nr.z = some 0) ∧
        (nr.label ≠ "hip" →
          ∃ r ∈ ([⟨0, "hip", 1, 2, 3⟩, ⟨0, "head", 4, 5, 6⟩] : Table),
          ∃ h ∈ ([⟨0, "hip", 1, 2, 3⟩, ⟨0, "head", 4, 5, 6⟩] : Table),
          h.label = "hip" ∧ h.idx = nr.idx ∧ r.label = nr.label ∧
          r.idx = nr.idx ∧ nr.x = some (r.x - h.x) ∧
          nr.y = some (r.y - h.y) ∧ nr.z = some (r.z - h.z)) :=
  center_hip_centers_frames _ (by decide) (by decide) (by decide)

/-- C6 counterexample: in a table where frame 1 has no hip row but frame
0 does, center_hip does not surface any error — the call succeeds. -/
theorem center_hip_partial_hip_counterexample :
    (center_hip [⟨0, "hip", 1, 1, 1⟩, ⟨0, "head", 2, 2, 2⟩,
                 ⟨1, "head", 5, 5, 5⟩]).isOk = true := rfl

/-- C6 (amended): the missing-group KeyError is raised exactly when no
row of the whole table is labeled "hip"; when the table is free of
duplicate frame indexes within a label (otherwise the aligned assignment
raises the duplicate-axis ValueError instead) and a hip row exists
somewhere but a given frame has none, no error is surfaced for that
frame — its non-hip rows instead come out with missing (NaN)
coordinates. -/
theorem center_hip_missing_hip_no_error (df : Table) :
    (center_hip df = Except.error "hip" ↔ ∀ r ∈ df, r.label ≠ "hip") ∧
    (frameLabelUnique df → (∃ h ∈ df, h.label = "hip") →
      ∀ r ∈ df, r.label ≠ "hip" →
      (∀ h ∈ df, h.label = "hip" → h.idx ≠ r.idx) →
      ∃ out, center_hip df = Except.ok out ∧ ∃ nr ∈ out,
        nr.idx = r.idx ∧ nr.label = r.label ∧
        nr.x = none ∧ nr.y = none ∧ nr.z = none) := by
  constructor
  · constructor
    · intro herr r hr hrl
      have hrg : r ∈ hipGroup df := by
        rw [hipGroup, getGroup, List.mem_filter]
        exact ⟨hr, by simp [hrl]⟩
      have hnemp : (hipGroup df).isEmpty = false :=
        List.isEmpty_eq_false.mpr (List.ne_nil_of_mem hrg)
      simp only [center_hip] at herr
      rw [hnemp] at herr
      cases hany2 : (((groupLabels df).filter (fun l => !(l == "hip"))).any
          (fun l => alignRaises ((getGroup df l).map (fun r => r.idx))
            ((hipGroup df).map (fun r => r.idx)))) with
      | true =>
        rw [hany2] at herr
        injection herr with hmsg
        exact absurd hmsg (by decide)
      | false =>
        rw [hany2] at herr
        exact Except.noConfusion herr
    · intro hall
      have hemp : hipGroup df = [] := by
        rw [hipGroup, getGroup, List.filter_eq_nil_iff]
        intro r hr
        simp [hall r hr]
      simp [center_hip, hemp]
  · rintro hu ⟨h0, hh0df, hh0l⟩ r hr hrl hnohip
    have hfla : hipAt df r.idx = none := by
      rw [hipAt, List.find?_eq_none]
      intro hx hxg
      rw [hipGroup, getGroup, List.mem_filter] at hxg
      have hxl : hx.label = "hip" := by simpa using hxg.2
      simp [hnohip hx hxg.1 hxl]
    refine ⟨_, center_hip_eq_ok_of_unique df ⟨h0, hh0df, hh0l⟩ hu, ?_⟩
    refine ⟨centerRow df r, ?_, rfl, rfl, ?_, ?_, ?_⟩
    · rw [List.mem_append]
      left
      rw [List.mem_flatMap]
      refine ⟨r.label, ?_, ?_⟩
      · rw [List.mem_filter]
        refine ⟨?_, by simp [hrl]⟩
        rw [groupLabels, (sortLabels_perm _).mem_iff, List.mem_dedup]
        exact List.mem_map.mpr ⟨r, hr, rfl⟩
      · rw [List.mem_map]
        refine ⟨r, ?_, rfl⟩
        rw [getGroup, List.mem_filter]
        exact ⟨hr, by simp⟩
    · show (hipAt df r.idx).map (fun h => r.x - h.x) = none
      rw [hfla]
      rfl
    · show (hipAt df r.idx).map (fun h => r.y - h.y) = none
      rw [hfla]
      rfl
    · show (hipAt df r.idx).map (fun h => r.z - h.z) = none
      rw [hfla]
      rfl

/-- Witness for C6 at the table of the counterexample: the hip-less
frame 1 head row is emitted with NaN coordinates and no error. -/
theorem center_hip_missing_hip_no_error_witness :
    ∃ out, center_hip [⟨0, "hip", 1, 1, 1⟩, ⟨0, "head", 2, 2, 2⟩,
        ⟨1, "head", 5, 5, 5⟩] = Except.ok out ∧
      ∃ nr ∈ out, nr.idx = 1 ∧ nr.label = "head" ∧
        nr.x = none ∧ nr.y = none ∧ nr.z = none :=
  (center_hip_missing_hip_no_error
      [⟨0, "hip", 1, 1, 1⟩, ⟨0, "head", 2, 2, 2⟩, ⟨1, "head", 5, 5, 5⟩]).2
    (by decide)
    ⟨⟨0, "hip", 1, 1, 1⟩, List.mem_cons_self _ _, rfl⟩
    ⟨1, "head", 5, 5, 5⟩ (by decide) (by decide) (by decide)
